import Mathlib

/-!
Shallow embedding of the Transforma Reader "Helium" subsystem
(`src/helium`): the duplicate-detection cache (`DuplicateCache.cpp`),
the two-tier invoice classifier (`InvoiceRouter.cpp`), the relay
submission client (`RelayClient.cpp`) and the submission orchestrator
(`HeliumController.cpp`).

C++ `std::string` values are modelled as lists of byte values
(`List Nat`, each element < 256; one element per byte, which coincides
with one per character on the ASCII data the program handles).  The
on-disk cache file is modelled as a flat list of bytes.  Wall-clock
time (`time(nullptr)`) is passed in explicitly as a parameter.
-/

namespace Transforma

/-- Byte string of an ASCII literal (one byte per character). -/
def bytesOf (s : String) : List Nat := s.data.map Char.toNat

/-- Reading a `char[N]` buffer as `std::string(buf)`: the bytes up to the
first NUL terminator. -/
def readCStr (l : List Nat) : List Nat := l.takeWhile (fun b => b != 0)

/-- `strncpy_s(dest, src.c_str(), w - 1)` into a zero-initialised buffer of
`w` bytes: at most `w - 1` bytes of `src` (stopping at a NUL, as `c_str()`
does), NUL-padded to the full width. -/
def fixedField (w : Nat) (s : List Nat) : List Nat :=
  let d := (s.takeWhile (fun b => b != 0)).take (w - 1)
  d ++ List.replicate (w - d.length) 0

/-- The packed `CacheEntry` record of `DuplicateCache.h`:
`char filename[256]; uint64_t submitTimestamp; char firsReference[32];
char submittedBy[64]`.  The `char` arrays are kept as raw byte lists of
their full width. -/
structure CacheEntry where
  filename : List Nat
  submitTimestamp : Nat
  firsReference : List Nat
  submittedBy : List Nat
  deriving Repr, DecidableEq

/-- `DuplicateStatus` of `DuplicateCache.h`. -/
inductive DuplicateStatus where
  | NotSubmitted
  | AlreadySubmitted
  | CacheUnavailable
  deriving Repr, DecidableEq

/-- `DuplicateCheckResult` of `DuplicateCache.h` (strings default-empty,
timestamp defaults to 0, as in the C++ struct). -/
structure DuplicateCheckResult where
  status : DuplicateStatus
  firsReference : List Nat := []
  submittedBy : List Nat := []
  submitTimestamp : Nat := 0
  deriving Repr, DecidableEq

/-- In-memory state of a `DuplicateCache`: `m_entries` and
`m_filenameIndex` (the unordered set is modelled as a duplicate-free
list; only membership is observable). -/
structure CacheState where
  entries : List CacheEntry
  index : List (List Nat)
  deriving Repr, DecidableEq

/-- A freshly constructed `DuplicateCache` (no entries, empty index). -/
def emptyCache : CacheState := ⟨[], []⟩

/-- `DuplicateCache::AddEntry(filename, firsRef, user)` at time `now`:
builds a zero-initialised `CacheEntry`, copies each string into its
fixed-width field with `strncpy_s(.., size - 1)`, appends it to
`m_entries` and inserts the (untruncated) `filename` argument into
`m_filenameIndex`.  (The synchronous `Save()` call is modelled
separately by `saveBytes`.) -/
def addEntry (s : CacheState) (filename firsRef user : List Nat) (now : Nat) :
    CacheState :=
  let e : CacheEntry :=
    { filename := fixedField 256 filename
      submitTimestamp := now
      firsReference := fixedField 32 firsRef
      submittedBy := fixedField 64 user }
  { entries := s.entries ++ [e]
    index := s.index.insert filename }

/-- `DuplicateCache::Check(filename)`: membership test on
`m_filenameIndex`; on a hit, a linear scan of `m_entries` for the first
entry whose stored (NUL-terminated) filename equals the query; if the
scan finds nothing, the fallback branch returns
`AlreadySubmitted` with the result's default-constructed detail
fields. -/
def check (s : CacheState) (filename : List Nat) : DuplicateCheckResult :=
  if filename ∈ s.index then
    match s.entries.find? (fun e => readCStr e.filename == filename) with
    | some e =>
        { status := .AlreadySubmitted
          firsReference := readCStr e.firsReference
          submittedBy := readCStr e.submittedBy
          submitTimestamp := e.submitTimestamp }
    | none => { status := .AlreadySubmitted }
  else
    { status := .NotSubmitted }

/-- Little-endian byte value of a byte list (inverse of serialisation). -/
def leVal : List Nat → Nat
  | [] => 0
  | b :: r => b + 256 * leVal r

/-- Little-endian `u32` serialisation. -/
def u32le (n : Nat) : List Nat :=
  [n % 256, n / 256 % 256, n / 256 ^ 2 % 256, n / 256 ^ 3 % 256]

/-- Little-endian `u64` serialisation. -/
def u64le (n : Nat) : List Nat :=
  [n % 256, n / 256 % 256, n / 256 ^ 2 % 256, n / 256 ^ 3 % 256,
   n / 256 ^ 4 % 256, n / 256 ^ 5 % 256, n / 256 ^ 6 % 256, n / 256 ^ 7 % 256]

/-- Byte layout of one packed `CacheEntry` (360 bytes:
256 + 8 + 32 + 64). -/
def serEntry (e : CacheEntry) : List Nat :=
  e.filename ++ u64le e.submitTimestamp ++ e.firsReference ++ e.submittedBy

/-- `DuplicateCache::Save()` as the byte content it writes: a
`CacheHeader` (`version = 1`, `entryCount = (uint32_t)m_entries.size()`,
`lastSyncTimestamp = time(nullptr)`) followed by the raw entry
records. -/
def saveBytes (s : CacheState) (now : Nat) : List Nat :=
  u32le 1 ++ u32le (s.entries.length % 2 ^ 32) ++ u64le now
    ++ (s.entries.map serEntry).flatten

/-- Reading one `CacheEntry` back from a 360-byte chunk. -/
def deserEntry (b : List Nat) : CacheEntry :=
  { filename := b.take 256
    submitTimestamp := leVal ((b.drop 256).take 8)
    firsReference := ((b.drop 264).take 32)
    submittedBy := ((b.drop 296).take 64) }

/-- A fixed-size chunk of the input stream; `ifstream::read` into the
zero-initialised buffer from `resize` leaves missing bytes zero. -/
def chunkPad (n : Nat) (l : List Nat) : List Nat :=
  l.take n ++ List.replicate (n - (l.take n).length) 0

/-- Reading `count` consecutive `CacheEntry` records from the byte
stream after the header. -/
def parseEntries : Nat → List Nat → List CacheEntry
  | 0, _ => []
  | n + 1, bytes => deserEntry (chunkPad 360 bytes) :: parseEntries n (bytes.drop 360)

/-- The index rebuild loop of `DuplicateCache::Load`: clear
`m_filenameIndex`, then insert `std::string(entry.filename)` for every
loaded entry. -/
def buildIndex (es : List CacheEntry) : List (List Nat) :=
  es.foldl (fun ix e => ix.insert (readCStr e.filename)) []

/-- `DuplicateCache::Load(path)` on cache state `s`.  `file = none`
models a missing file (`is_open()` fails): return `true`, state
untouched.  A present file with header version ≠ 1 also returns `true`
with the state untouched ("start fresh").  Otherwise `entryCount`
records are read and the index is rebuilt.  The `Bool` is the C++
return value (always `true` on these paths). -/
def loadBytes (s : CacheState) (file : Option (List Nat)) : CacheState × Bool :=
  match file with
  | none => (s, true)
  | some bytes =>
      let version := leVal (bytes.take 4)
      if version ≠ 1 then (s, true)
      else
        let count := leVal ((bytes.drop 4).take 4)
        let es := parseEntries count (bytes.drop 16)
        ({ entries := es, index := buildIndex es }, true)

/-! ## InvoiceRouter (`InvoiceRouter.cpp`) -/

/-- `::toupper` on an ASCII byte. -/
def upByte (c : Nat) : Nat := if 97 ≤ c ∧ c ≤ 122 then c - 32 else c

/-- `hay.find(pat) != std::string::npos`. -/
def hasSub : List Nat → List Nat → Bool
  | [], pat => pat.isEmpty
  | c :: rest, pat => pat.isPrefixOf (c :: rest) || hasSub rest pat

/-- `RouteDecision` of `InvoiceRouter.h`. -/
inductive RouteDecision where
  | Invoice
  | NotInvoice
  | Unknown
  deriving Repr, DecidableEq

/-- `RouteResult` of `InvoiceRouter.h`; the `double` confidence is
modelled as an exact rational. -/
structure RouteResult where
  decision : RouteDecision
  matchedPattern : List Nat := []
  clientHint : List Nat := []
  confidenceScore : ℚ := 0
  deriving Repr, DecidableEq

/-- The fixed tier-2 marker table of `InvoiceRouter::AnalyzeContent`
(text, weight), in source order. -/
def markersTable : List (List Nat × ℚ) :=
  [(bytesOf "TAX INVOICE",    0.40),
   (bytesOf "INVOICE",        0.25),
   (bytesOf "BILL TO",        0.20),
   (bytesOf "SHIP TO",        0.15),
   (bytesOf "TIN:",           0.30),
   (bytesOf "VAT:",           0.20),
   (bytesOf "TOTAL AMOUNT",   0.15),
   (bytesOf "SUBTOTAL",       0.15),
   (bytesOf "DUE DATE",       0.15),
   (bytesOf "INVOICE NO",     0.30),
   (bytesOf "INVOICE NUMBER", 0.30),
   (bytesOf "INV NO",         0.25),
   (bytesOf "PURCHASE ORDER", 0.20),
   (bytesOf "ACCOUNT NO",     0.10),
   (bytesOf "FIRS",           0.25)]

/-- The scoring loop of `AnalyzeContent`: accumulate the weight of each
marker present in the upper-cased excerpt `u`, remembering the first
marker found (`bestMatch` is set only while still empty). -/
def scanMarkers (u : List Nat) : List (List Nat × ℚ) → ℚ → List Nat → ℚ × List Nat
  | [], sc, bm => (sc, bm)
  | m :: rest, sc, bm =>
      if hasSub u m.1 then
        scanMarkers u rest (sc + m.2) (if bm.isEmpty then m.1 else bm)
      else
        scanMarkers u rest sc bm

/-- `InvoiceRouter::AnalyzeContent`, taking the already-extracted excerpt
(the external extraction collaborator is factored out): empty excerpt
gives `Unknown`/0; otherwise score the upper-cased text against
`markersTable`, clamp to 1.0, and decide at the 0.30 threshold. -/
def analyzeContent (text : List Nat) : RouteResult :=
  if text.isEmpty then
    { decision := .Unknown, confidenceScore := 0 }
  else
    let u := text.map upByte
    let p := scanMarkers u markersTable 0 []
    let score := if p.1 > 1 then 1 else p.1
    if score ≥ 0.30 then
      { decision := .Invoice
        matchedPattern := bytesOf "Content analysis: " ++ p.2
        confidenceScore := score }
    else
      { decision := .NotInvoice, confidenceScore := 1 - score }

/-- Spec-side score: the sum of the weights of the marker entries present
in `u` as substrings, clamped to 1. -/
def markerScore (u : List Nat) : ℚ :=
  min 1 ((markersTable.filter (fun m => hasSub u m.1)).map (fun m => m.2)).sum

/-- Spec-side diagnostic: the first marker of the table (in table order)
present in `u`. -/
def firstMarkerHit (u : List Nat) : Option (List Nat × ℚ) :=
  markersTable.find? (fun m => hasSub u m.1)

/-- `RoutingPattern` of `InvoiceRouter.h`; the compiled `std::regex` is
an external library object, modelled as an abstract matcher on the
filename. -/
structure RoutingPattern where
  name : List Nat
  matcher : List Nat → Bool
  description : List Nat

/-- The static pattern table of `InvoiceRouter::InitDefaultPatterns`, in
source order, with the six regex matchers abstracted as parameters. -/
def defaultPatterns (m0 m1 m2 m3 m4 m5 : List Nat → Bool) : List RoutingPattern :=
  [⟨bytesOf "GTBank", m0, bytesOf "GTBank invoice filenames"⟩,
   ⟨bytesOf "MTN", m1, bytesOf "MTN billing documents"⟩,
   ⟨bytesOf "Airtel", m2, bytesOf "Airtel billing documents"⟩,
   ⟨bytesOf "ExecuJet", m3, bytesOf "ExecuJet work order / invoice"⟩,
   ⟨bytesOf "Generic", m4, bytesOf "Generic invoice filenames"⟩,
   ⟨bytesOf "FIRS", m5, bytesOf "FIRS / tax-related documents"⟩]

/-- Base filename of a path: everything after the last `\` or `/`
(`find_last_of("\x5c/")` followed by `substr`); the whole string when no
separator occurs.  Shared by `InvoiceRouter::Route` and
`HeliumController::ExtractFilename`. -/
def baseNameOf (path : List Nat) : List Nat :=
  (path.reverse.takeWhile (fun c => c != 92 && c != 47)).reverse

/-- `InvoiceRouter::MatchFilename`: first pattern whose matcher accepts
the filename wins with confidence 0.95; otherwise `Unknown`/0. -/
def matchFilename (ps : List RoutingPattern) (filename : List Nat) : RouteResult :=
  match ps.find? (fun p => p.matcher filename) with
  | some p =>
      { decision := .Invoice
        matchedPattern := p.description
        clientHint := p.name
        confidenceScore := 0.95 }
  | none => { decision := .Unknown, confidenceScore := 0 }

/-- `InvoiceRouter::Route`: tier 1 on the base filename; tier 2
(content analysis on the excerpt produced by the external extraction
collaborator `extractor`) only when tier 1 did not return `Invoice`.
The `Bool` records whether the extraction collaborator was invoked. -/
def route (ps : List RoutingPattern) (extractor : List Nat → List Nat)
    (path : List Nat) : RouteResult × Bool :=
  let r := matchFilename ps (baseNameOf path)
  if r.decision = .Invoice then (r, false)
  else (analyzeContent (extractor path), true)

/-! ## RelayClient (`RelayClient.cpp`) -/

/-- `RelayResponse` of `RelayClient.h`. -/
structure RelayResponse where
  statusCode : Nat := 0
  body : List Nat := []
  error : List Nat := []
  success : Bool := false
  deriving Repr, DecidableEq

/-- `SubmitResult` of `RelayClient.h`. -/
structure SubmitResult where
  success : Bool := false
  firsReference : List Nat := []
  fileUuid : List Nat := []
  error : List Nat := []
  httpStatus : Nat := 0
  deriving Repr, DecidableEq

/-- `std::string::find` scanning helper: first index `≥ i` at which
`pat` occurs in the remaining haystack. -/
def findSubAux : List Nat → List Nat → Nat → Option Nat
  | [], pat, i => if pat.isEmpty then some i else none
  | c :: rest, pat, i =>
      if pat.isPrefixOf (c :: rest) then some i else findSubAux rest pat (i + 1)

/-- `hay.find(pat, pos)`: `none` models `npos`. -/
def findSubFrom (hay pat : List Nat) (pos : Nat) : Option Nat :=
  (findSubAux (hay.drop pos) pat 0).map (· + pos)

/-- The `extractField` lambda of `RelayClient::SubmitInvoice`: locate
`"key"`, then the quote opening the value (searching from one past the
closing key quote), then the quote closing it, and return the bytes in
between; any failed search yields the empty string.  Byte 34 is the
double quote. -/
def extractField (body key : List Nat) : List Nat :=
  let search := 34 :: key ++ [34]
  match findSubFrom body search 0 with
  | none => []
  | some pos =>
      match findSubFrom body [34] (pos + search.length + 1) with
      | none => []
      | some p2 =>
          match findSubFrom body [34] (p2 + 1) with
          | none => []
          | some e => (body.drop (p2 + 1)).take (e - p2 - 1)

/-- The response-handling tail of `RelayClient::SubmitInvoice`: given the
`RelayResponse` from `SendRequest` (the multipart body build having
succeeded), produce the `SubmitResult`. -/
def submitOutcome (resp : RelayResponse) : SubmitResult :=
  let base : SubmitResult := { httpStatus := resp.statusCode }
  if !resp.success then
    { base with error := resp.error }
  else if resp.statusCode == 200 || resp.statusCode == 201 then
    { base with success := true
                fileUuid := extractField resp.body (bytesOf "file_uuid")
                firsReference := extractField resp.body (bytesOf "firs_reference") }
  else if resp.statusCode == 409 then
    { base with error := bytesOf "Invoice already submitted (duplicate)" }
  else if resp.statusCode == 429 then
    { base with error := bytesOf "Daily submission limit exceeded" }
  else
    { base with error := bytesOf "Relay returned HTTP " ++ bytesOf (toString resp.statusCode) }

/-! ## HeliumController (`HeliumController.cpp`) -/

/-- `SessionInfo` of `SessionToken.h`. -/
structure SessionInfo where
  username : List Nat := []
  token : List Nat := []
  expiresAt : List Nat := []
  userId : List Nat := []
  valid : Bool := false
  error : List Nat := []
  deriving Repr, DecidableEq

/-- `SubmitButtonState` of `HeliumController.h`. -/
inductive SubmitButtonState where
  | Ready
  | AlreadySubmitted
  | Checking
  | Submitting
  | Success
  | Error
  | NoSession
  | FloatNotRunning
  deriving Repr, DecidableEq

/-- `ButtonStateInfo` of `HeliumController.h`. -/
structure ButtonStateInfo where
  state : SubmitButtonState
  label : List Nat
  tooltip : List Nat
  deriving Repr, DecidableEq

/-- The submission task body of `HeliumController::OnSubmitClicked`,
with its collaborators explicit: `session` is what `SessionToken::Load`
returns, `cache` the duplicate-cache state, `transport` the
`SubmitResult` the relay would return when called, `now` the clock read
by `AddEntry`.  Returns the ordered list of `SetState` snapshots the
task publishes, whether the transport was invoked, and the resulting
cache state. -/
def onSubmitClicked (session : SessionInfo) (cache : CacheState)
    (transport : SubmitResult) (path : List Nat) (now : Nat) :
    List ButtonStateInfo × Bool × CacheState :=
  if !session.valid then
    ([⟨.NoSession, bytesOf "Sign In Required", session.error⟩], false, cache)
  else
    let filename := baseNameOf path
    let dup := check cache filename
    if dup.status = .AlreadySubmitted then
      ([⟨.AlreadySubmitted, bytesOf "Already Submitted",
         bytesOf "Submitted by " ++ dup.submittedBy ++ bytesOf " (Ref: "
           ++ dup.firsReference ++ bytesOf ")"⟩], false, cache)
    else
      let st0 : ButtonStateInfo :=
        ⟨.Submitting, bytesOf "Submitting...",
         bytesOf "Sending to Helium Relay for FIRS processing"⟩
      if transport.success then
        ([st0,
          ⟨.Success, bytesOf "Submitted!",
           bytesOf "FIRS Reference: " ++ transport.firsReference⟩,
          ⟨.AlreadySubmitted, bytesOf "Already Submitted",
           bytesOf "FIRS Reference: " ++ transport.firsReference⟩],
         true, addEntry cache filename transport.firsReference session.username now)
      else
        ([st0,
          ⟨.Error, bytesOf "Submit Failed", transport.error⟩,
          ⟨.Ready, bytesOf "Submit to FIRS", bytesOf "Click to retry submission"⟩],
         true, cache)

/-! ## Helper lemmas -/

/-- A record as the program itself lays it out: each `char` array filled
to its declared width and a timestamp that fits in `uint64_t`. -/
def WFentry (e : CacheEntry) : Prop :=
  e.filename.length = 256 ∧ e.firsReference.length = 32 ∧
    e.submittedBy.length = 64 ∧ e.submitTimestamp < 2 ^ 64

instance (e : CacheEntry) : Decidable (WFentry e) := by
  unfold WFentry; infer_instance

lemma takeWhile_append_of_all {p : Nat → Bool} {l₁ : List Nat}
    (h : ∀ a ∈ l₁, p a) (l₂ : List Nat) :
    (l₁ ++ l₂).takeWhile p = l₁ ++ l₂.takeWhile p := by
  induction l₁ with
  | nil => simp
  | cons a t ih =>
      simp only [List.cons_append, List.takeWhile_cons, h a (by simp)]
      simpa using ih fun x hx => h x (by simp [hx])

lemma readCStr_replicate_zero (k : Nat) : readCStr (List.replicate k 0) = [] := by
  cases k <;> simp [readCStr, List.replicate, List.takeWhile_cons]

lemma readCStr_fixedField {w : Nat} {s : List Nat} (hw : s.length ≤ w - 1)
    (h0 : ∀ b ∈ s, b ≠ 0) : readCStr (fixedField w s) = s := by
  have hs : s.takeWhile (fun b => b != 0) = s :=
    List.takeWhile_eq_self_iff.mpr (by intro x hx; simpa using h0 x hx)
  unfold fixedField readCStr
  rw [hs, List.take_of_length_le hw,
    takeWhile_append_of_all (p := fun b => b != 0)
      (by intro a ha; simpa using h0 a ha)]
  simp [readCStr_replicate_zero (w - s.length)]

lemma length_fixedField (w : Nat) (s : List Nat) :
    (fixedField w s).length = w := by
  unfold fixedField
  have h : ((s.takeWhile (fun b => b != 0)).take (w - 1)).length ≤ w - 1 := by
    simp
  simp only [List.length_append, List.length_replicate]
  omega

lemma leVal_u32le (n : Nat) : leVal (u32le n) = n % 2 ^ 32 := by
  simp only [u32le, leVal]
  norm_num
  omega

lemma leVal_u64le (n : Nat) : leVal (u64le n) = n % 2 ^ 64 := by
  simp only [u64le, leVal]
  norm_num
  omega

lemma take_append_len (a b : List Nat) (n : Nat) (h : a.length = n) :
    (a ++ b).take n = a := h ▸ List.take_left a b

lemma drop_append_len (a b : List Nat) (n : Nat) (h : a.length = n) :
    (a ++ b).drop n = b := h ▸ List.drop_left a b

lemma drop_add (l : List Nat) (n m : Nat) :
    l.drop (n + m) = (l.drop n).drop m := (List.drop_drop m n l).symm

lemma serEntry_length {e : CacheEntry} (h : WFentry e) :
    (serEntry e).length = 360 := by
  obtain ⟨h1, h2, h3, _⟩ := h
  simp [serEntry, u64le, h1, h2, h3]

lemma deserEntry_serEntry {e : CacheEntry} (h : WFentry e) (rest : List Nat) :
    deserEntry (chunkPad 360 (serEntry e ++ rest)) = e := by
  obtain ⟨h1, h2, h3, h4⟩ := h
  have hlen : (serEntry e).length = 360 := serEntry_length ⟨h1, h2, h3, h4⟩
  have hchunk : chunkPad 360 (serEntry e ++ rest) = serEntry e := by
    unfold chunkPad
    rw [take_append_len _ _ 360 hlen, hlen]
    simp
  rw [hchunk]
  obtain ⟨f, ts, fr, sb⟩ := e
  simp only [serEntry, List.append_assoc] at *
  have e1 : (f ++ (u64le ts ++ (fr ++ sb))).take 256 = f :=
    take_append_len _ _ 256 h1
  have eD256 : (f ++ (u64le ts ++ (fr ++ sb))).drop 256 = u64le ts ++ (fr ++ sb) :=
    drop_append_len _ _ 256 h1
  have eTs : leVal (((f ++ (u64le ts ++ (fr ++ sb))).drop 256).take 8) = ts := by
    rw [eD256, take_append_len (u64le ts) _ 8 (by simp [u64le]), leVal_u64le,
      Nat.mod_eq_of_lt h4]
  have eD264 : (f ++ (u64le ts ++ (fr ++ sb))).drop 264 = fr ++ sb := by
    rw [show (264 : Nat) = 256 + 8 from rfl, drop_add, eD256,
      drop_append_len (u64le ts) _ 8 (by simp [u64le])]
  have eFr : ((f ++ (u64le ts ++ (fr ++ sb))).drop 264).take 32 = fr := by
    rw [eD264, take_append_len _ _ 32 h2]
  have eD296 : (f ++ (u64le ts ++ (fr ++ sb))).drop 296 = sb := by
    rw [show (296 : Nat) = 264 + 32 from rfl, drop_add, eD264,
      drop_append_len _ _ 32 h2]
  have eSb : ((f ++ (u64le ts ++ (fr ++ sb))).drop 296).take 64 = sb := by
    rw [eD296]
    exact List.take_of_length_le (by omega)
  simp [deserEntry, e1, eTs, eFr, eSb]

lemma parse_flatten (es : List CacheEntry) (h : ∀ e ∈ es, WFentry e) :
    parseEntries es.length (es.map serEntry).flatten = es := by
  induction es with
  | nil => simp [parseEntries]
  | cons e t ih =>
      simp only [List.map_cons, List.flatten_cons, List.length_cons, parseEntries]
      refine congrArg₂ _ (deserEntry_serEntry (h e (by simp)) _) ?_
      rw [show (360 : Nat) = (serEntry e).length from
            (serEntry_length (h e (by simp))).symm, List.drop_left]
      exact ih fun x hx => h x (by simp [hx])

lemma mem_buildIndex_aux (es : List CacheEntry) (acc : List (List Nat))
    (x : List Nat) :
    (x ∈ es.foldl (fun ix e => ix.insert (readCStr e.filename)) acc) ↔
      x ∈ acc ∨ x ∈ es.map fun e => readCStr e.filename := by
  induction es generalizing acc with
  | nil => simp
  | cons e t ih => simp [ih, List.mem_insert_iff]; tauto

lemma mem_buildIndex (es : List CacheEntry) (x : List Nat) :
    x ∈ buildIndex es ↔ x ∈ es.map fun e => readCStr e.filename := by
  unfold buildIndex
  simpa using mem_buildIndex_aux es [] x

/-- `loadBytes` on a `saveBytes` image, with no bound on the entry
count: the loader parses `entry count mod 2 ^ 32` records, as written in
the `uint32_t` header field. -/
lemma load_save_raw (s : CacheState) (ts : Nat) :
    loadBytes emptyCache (some (saveBytes s ts)) =
      ({ entries := parseEntries (s.entries.length % 2 ^ 32)
            ((s.entries.map serEntry).flatten),
         index := buildIndex (parseEntries (s.entries.length % 2 ^ 32)
            ((s.entries.map serEntry).flatten)) }, true) := by
  have hd4 : (saveBytes s ts).drop 4 =
      u32le (s.entries.length % 2 ^ 32)
        ++ (u64le ts ++ (s.entries.map serEntry).flatten) := by
    unfold saveBytes
    simp only [List.append_assoc]
    exact drop_append_len (u32le 1) _ 4 (by simp [u32le])
  have hver : leVal ((saveBytes s ts).take 4) = 1 := by
    unfold saveBytes
    simp only [List.append_assoc]
    rw [take_append_len (u32le 1) _ 4 (by simp [u32le]), leVal_u32le]
    norm_num
  have hcount : leVal (((saveBytes s ts).drop 4).take 4) =
      s.entries.length % 2 ^ 32 := by
    rw [hd4, take_append_len (u32le (s.entries.length % 2 ^ 32)) _ 4
      (by simp [u32le]), leVal_u32le]
    omega
  have hpay : (saveBytes s ts).drop 16 =
      (s.entries.map serEntry).flatten := by
    rw [show (16 : Nat) = 4 + 12 from rfl, drop_add, hd4,
      show (12 : Nat) = 4 + 8 from rfl, drop_add,
      drop_append_len (u32le (s.entries.length % 2 ^ 32)) _ 4 (by simp [u32le]),
      drop_append_len (u64le ts) _ 8 (by simp [u64le])]
  simp only [loadBytes, hver, hcount, hpay, ne_eq, not_true_eq_false, if_false]

/-- `loadBytes` on the exact byte string `saveBytes` wrote, when the
record count fits `uint32_t`. -/
lemma load_save (s : CacheState) (ts : Nat)
    (hwf : ∀ e ∈ s.entries, WFentry e) (hn : s.entries.length < 2 ^ 32) :
    loadBytes emptyCache (some (saveBytes s ts)) =
      ({ entries := s.entries, index := buildIndex s.entries }, true) := by
  rw [load_save_raw, Nat.mod_eq_of_lt hn, parse_flatten s.entries hwf]

/-- `saveBytes` always writes a version-1 header. -/
lemma saveBytes_version (s : CacheState) (ts : Nat) :
    leVal ((saveBytes s ts).take 4) = 1 := by
  unfold saveBytes
  simp only [List.append_assoc]
  rw [take_append_len (u32le 1) _ 4 (by simp [u32le]), leVal_u32le]
  norm_num

/-- The spec invariant of §3: the index is exactly the set of filename
values stored in the records. -/
def CacheInv (s : CacheState) : Prop :=
  ∀ x, x ∈ s.index ↔ x ∈ s.entries.map fun e => readCStr e.filename

/-! ## Claim theorems: DuplicateCache -/

set_option maxRecDepth 100000

/-- Claim C9: `Check` on any cache state returns only `NotSubmitted` or
`AlreadySubmitted`, never the declared `CacheUnavailable` status; a
filename absent from the index always yields `NotSubmitted`, and on a
freshly constructed cache (nothing loaded) every filename yields
`NotSubmitted`. -/
theorem check_never_cache_unavailable (s : CacheState) (fn : List Nat) :
    (check s fn).status ≠ DuplicateStatus.CacheUnavailable ∧
      (fn ∉ s.index → check s fn = { status := .NotSubmitted }) ∧
      check emptyCache fn = { status := .NotSubmitted } := by
  refine ⟨?_, fun h => by simp [check, h], by simp [check, emptyCache]⟩
  unfold check
  split
  · split <;> simp
  · simp

theorem check_never_cache_unavailable_witness :
    check emptyCache (bytesOf "a.pdf") = { status := .NotSubmitted } :=
  (check_never_cache_unavailable emptyCache (bytesOf "a.pdf")).2.1 (by decide)

/-- Claim C10: when `Check` finds the filename in the index but no record
whose stored filename equals it, it returns `AlreadySubmitted` with empty
`firsReference`, empty `submittedBy` and timestamp 0; the branch is
reachable: adding a 256-byte filename to the empty cache stores a
255-byte truncation in the record while indexing the full name, and the
subsequent `Check` of the full name lands in the fallback. -/
theorem check_fallback_branch (s : CacheState) (fn : List Nat)
    (hmem : fn ∈ s.index)
    (hnone : ∀ e ∈ s.entries, readCStr e.filename ≠ fn) :
    check s fn = { status := .AlreadySubmitted, firsReference := [],
                   submittedBy := [], submitTimestamp := 0 } ∧
      check (addEntry emptyCache (List.replicate 256 97) (bytesOf "R")
          (bytesOf "u") 7) (List.replicate 256 97) =
        { status := .AlreadySubmitted } := by
  constructor
  · have hf : s.entries.find? (fun e => readCStr e.filename == fn) = none :=
      List.find?_eq_none.mpr (by intro e he; simpa using hnone e he)
    simp [check, hmem, hf]
  · decide

theorem check_fallback_branch_witness :
    check (addEntry emptyCache (List.replicate 256 97) (bytesOf "R")
        (bytesOf "u") 7) (List.replicate 256 97) =
      { status := .AlreadySubmitted, firsReference := [],
        submittedBy := [], submitTimestamp := 0 } :=
  (check_fallback_branch
    (addEntry emptyCache (List.replicate 256 97) (bytesOf "R") (bytesOf "u") 7)
    (List.replicate 256 97) (by decide) (by decide)).1

/-- Claim C1 counterexample: for the 256-byte filename `X = "BBB…B"`,
`AddEntry(X, "REF-9", "ada")` followed by `Check(X)` does not return the
added `firsReference` (the record stores only a 255-byte truncation, so
the retrieval scan misses and the fallback returns an empty
reference). -/
theorem addEntry_check_counterexample :
    (check (addEntry emptyCache (List.replicate 256 66) (bytesOf "REF-9")
        (bytesOf "ada") 3) (List.replicate 256 66)).firsReference ≠
      bytesOf "REF-9" := by decide

/-- Claim C1 (amended): for a filename `X` that fits the record field
(≤ 255 bytes, NUL-free) with reference and user within their field
bounds (≤ 31 and ≤ 63 bytes, NUL-free), and no existing record storing
`X`, `AddEntry(X, ref, user)` followed by `Check(X)` returns
`AlreadySubmitted` with exactly that reference and user; and `Check(Y)`
for any `Y` not in the index returns `NotSubmitted`. -/
theorem addEntry_check_roundtrip (s : CacheState) (X R U : List Nat) (now : Nat)
    (hX : X.length ≤ 255) (hX0 : ∀ b ∈ X, b ≠ 0)
    (hR : R.length ≤ 31) (hR0 : ∀ b ∈ R, b ≠ 0)
    (hU : U.length ≤ 63) (hU0 : ∀ b ∈ U, b ≠ 0)
    (hfresh : ∀ e ∈ s.entries, readCStr e.filename ≠ X) :
    check (addEntry s X R U now) X =
      { status := .AlreadySubmitted, firsReference := R, submittedBy := U,
        submitTimestamp := now } ∧
      ∀ Y, Y ∉ s.index → check s Y = { status := .NotSubmitted } := by
  refine ⟨?_, fun Y hY => by simp [check, hY]⟩
  have hmem : X ∈ (addEntry s X R U now).index := by
    simp [addEntry, List.mem_insert_iff]
  have hname : readCStr (fixedField 256 X) = X :=
    readCStr_fixedField (by omega) hX0
  have hfind : (addEntry s X R U now).entries.find?
      (fun e => readCStr e.filename == X) =
      some { filename := fixedField 256 X, submitTimestamp := now,
             firsReference := fixedField 32 R, submittedBy := fixedField 64 U } := by
    simp only [addEntry, List.find?_append]
    have h1 : s.entries.find? (fun e => readCStr e.filename == X) = none :=
      List.find?_eq_none.mpr (by intro e he; simpa using hfresh e he)
    rw [h1]
    simp [hname]
  simp only [check, hmem, if_true, hfind]
  simp [hname, readCStr_fixedField (show R.length ≤ 32 - 1 by omega) hR0,
    readCStr_fixedField (show U.length ≤ 64 - 1 by omega) hU0]

theorem addEntry_check_roundtrip_witness :
    check (addEntry emptyCache (bytesOf "inv.pdf") (bytesOf "FIRS-1")
        (bytesOf "bob") 42) (bytesOf "inv.pdf") =
      { status := .AlreadySubmitted, firsReference := bytesOf "FIRS-1",
        submittedBy := bytesOf "bob", submitTimestamp := 42 } :=
  (addEntry_check_roundtrip emptyCache (bytesOf "inv.pdf") (bytesOf "FIRS-1")
    (bytesOf "bob") 42 (by decide) (by decide) (by decide) (by decide)
    (by decide) (by decide) (by decide)).1

/-- Claim C2 counterexample: after `AddEntry` with a 256-byte filename on
the empty cache, the index contains the full 256-byte name but the only
record stores its 255-byte truncation, so the index is not the set of
stored filename values. -/
theorem index_invariant_counterexample :
    ¬ (∀ x, x ∈ (addEntry emptyCache (List.replicate 256 67) (bytesOf "R")
          (bytesOf "u") 1).index ↔
        x ∈ (addEntry emptyCache (List.replicate 256 67) (bytesOf "R")
            (bytesOf "u") 1).entries.map fun e => readCStr e.filename) := by
  intro h
  have h2 := (h (List.replicate 256 67)).mp (by decide)
  revert h2
  decide

/-- Claim C2 (amended): the invariant "index = set of stored filename
values" holds of a fresh cache, is preserved by `Load` (rebuilt exactly
from the loaded records when a version-1 file is read, untouched
otherwise), and is preserved by `AddEntry` whenever the added filename
fits the record field (≤ 255 NUL-free bytes); an over-long filename
breaks it, as the counterexample shows. -/
theorem index_invariant_preserved (s : CacheState) (file : Option (List Nat))
    (X R U : List Nat) (now : Nat)
    (hinv : CacheInv s) (hX : X.length ≤ 255) (hX0 : ∀ b ∈ X, b ≠ 0) :
    CacheInv emptyCache ∧ CacheInv (addEntry s X R U now) ∧
      CacheInv (loadBytes s file).1 := by
  refine ⟨by intro x; simp [emptyCache], ?_, ?_⟩
  · intro x
    have hname : readCStr (fixedField 256 X) = X :=
      readCStr_fixedField (by omega) hX0
    simp only [addEntry, List.mem_insert_iff, List.map_append, List.map_cons,
      List.map_nil, List.mem_append, List.mem_cons, hname, List.mem_singleton,
      hinv x]
    tauto
  · match file with
    | none => exact hinv
    | some bytes =>
        by_cases hv : leVal (bytes.take 4) = 1
        · simp only [loadBytes, hv, ne_eq, not_true_eq_false, if_false]
          intro x
          exact mem_buildIndex _ x
        · simp only [loadBytes, ne_eq, hv, not_false_eq_true, if_true]
          exact hinv

theorem index_invariant_preserved_witness :
    CacheInv (addEntry emptyCache (bytesOf "inv.pdf") (bytesOf "R")
      (bytesOf "u") 5) :=
  (index_invariant_preserved emptyCache none (bytesOf "inv.pdf") (bytesOf "R")
    (bytesOf "u") 5 (by intro x; simp [emptyCache]) (by decide) (by decide)).2.1

/-- Claim C3 counterexample: a store of exactly `2 ^ 32` records does
not round-trip, because `Save` writes the entry count through a
`uint32_t` cast: the header records 0 entries and `Load` yields an empty
record sequence. -/
theorem save_load_roundtrip_counterexample :
    (loadBytes emptyCache (some (saveBytes
        { entries := List.replicate (2 ^ 32)
            { filename := List.replicate 256 0, submitTimestamp := 0,
              firsReference := List.replicate 32 0,
              submittedBy := List.replicate 64 0 },
          index := [[]] } 0))).1.entries ≠
      List.replicate (2 ^ 32)
        { filename := List.replicate 256 0, submitTimestamp := 0,
          firsReference := List.replicate 32 0,
          submittedBy := List.replicate 64 0 } := by
  have key : ∀ n : Nat, n % 2 ^ 32 = 0 →
      (loadBytes emptyCache (some (saveBytes
        { entries := List.replicate n
            { filename := List.replicate 256 0, submitTimestamp := 0,
              firsReference := List.replicate 32 0,
              submittedBy := List.replicate 64 0 },
          index := [[]] } 0))).1.entries = [] := by
    intro n hn
    have h := load_save_raw
      { entries := List.replicate n
          { filename := List.replicate 256 0, submitTimestamp := 0,
            firsReference := List.replicate 32 0,
            submittedBy := List.replicate 64 0 },
        index := [[]] } 0
    simp only [List.length_replicate] at h
    rw [hn] at h
    rw [h]
    rfl
  intro hc
  have h0 := key (2 ^ 32) (Nat.mod_self _)
  rw [hc] at h0
  have hl := congrArg List.length h0
  rw [List.length_replicate, List.length_nil] at hl
  exact absurd hl (by norm_num)

/-- Claim C3 (amended): for every store of `N` well-formed cache
records with `N < 2 ^ 32`, `Save` followed by `Load` yields an identical
record sequence (same order and field values), a `true` return, and an
index exactly equal to the set of the stored filename values. -/
theorem save_load_roundtrip (s : CacheState) (ts : Nat)
    (hwf : ∀ e ∈ s.entries, WFentry e) (hn : s.entries.length < 2 ^ 32) :
    (loadBytes emptyCache (some (saveBytes s ts))).1.entries = s.entries ∧
      (loadBytes emptyCache (some (saveBytes s ts))).2 = true ∧
      ∀ x, x ∈ (loadBytes emptyCache (some (saveBytes s ts))).1.index ↔
        x ∈ s.entries.map fun e => readCStr e.filename := by
  rw [load_save s ts hwf hn]
  exact ⟨rfl, rfl, fun x => mem_buildIndex _ x⟩

theorem save_load_roundtrip_witness :
    (loadBytes emptyCache (some (saveBytes
        (addEntry emptyCache (bytesOf "a.pdf") (bytesOf "R") (bytesOf "u") 7)
        9))).1.entries =
      (addEntry emptyCache (bytesOf "a.pdf") (bytesOf "R") (bytesOf "u")
        7).entries :=
  (save_load_roundtrip
    (addEntry emptyCache (bytesOf "a.pdf") (bytesOf "R") (bytesOf "u") 7) 9
    (by decide) (by decide)).1

/-- Claim C6: a missing cache file, or one whose header version is not
1, loads as an empty store with a `true` (success) return; a subsequent
`AddEntry` followed by `Save` writes a valid version-1 file containing
exactly that entry. -/
theorem load_failopen (bytes X R U : List Nat) (now ts : Nat)
    (hv : leVal (bytes.take 4) ≠ 1) (hnow : now < 2 ^ 64) :
    loadBytes emptyCache none = (emptyCache, true) ∧
      loadBytes emptyCache (some bytes) = (emptyCache, true) ∧
      leVal ((saveBytes (addEntry emptyCache X R U now) ts).take 4) = 1 ∧
      (loadBytes emptyCache
          (some (saveBytes (addEntry emptyCache X R U now) ts))).1.entries =
        (addEntry emptyCache X R U now).entries := by
  refine ⟨rfl, by simp [loadBytes, hv], saveBytes_version _ _, ?_⟩
  have hwf : ∀ e ∈ (addEntry emptyCache X R U now).entries, WFentry e := by
    intro e he
    simp only [addEntry, emptyCache, List.nil_append, List.mem_singleton] at he
    subst he
    exact ⟨length_fixedField 256 X, length_fixedField 32 R,
      length_fixedField 64 U, hnow⟩
  rw [load_save _ ts hwf (by simp [addEntry, emptyCache])]

theorem load_failopen_witness :
    loadBytes emptyCache (some [2, 0, 0, 0, 1, 0, 0, 0]) = (emptyCache, true) ∧
      (loadBytes emptyCache
          (some (saveBytes (addEntry emptyCache (bytesOf "b.pdf") (bytesOf "R")
            (bytesOf "u") 7) 9))).1.entries =
        (addEntry emptyCache (bytesOf "b.pdf") (bytesOf "R") (bytesOf "u")
          7).entries :=
  ⟨(load_failopen [2, 0, 0, 0, 1, 0, 0, 0] (bytesOf "b.pdf") (bytesOf "R")
      (bytesOf "u") 7 9 (by decide) (by decide)).2.1,
   (load_failopen [2, 0, 0, 0, 1, 0, 0, 0] (bytesOf "b.pdf") (bytesOf "R")
      (bytesOf "u") 7 9 (by decide) (by decide)).2.2.2⟩

lemma clamp_eq_min (x : ℚ) : (if x > 1 then 1 else x) = min 1 x := by
  rcases le_or_lt x 1 with h | h
  · rw [if_neg (not_lt.mpr h), min_eq_right h]
  · rw [if_pos h, min_eq_left h.le]

lemma scanMarkers_spec (u : List Nat) (ms : List (List Nat × ℚ)) (sc : ℚ)
    (bm : List Nat) (hms : ∀ m ∈ ms, m.1 ≠ []) :
    scanMarkers u ms sc bm =
      (sc + ((ms.filter fun m => hasSub u m.1).map fun m => m.2).sum,
       if bm.isEmpty then
         ((ms.find? fun m => hasSub u m.1).map fun m => m.1).getD bm
       else bm) := by
  induction ms generalizing sc bm with
  | nil =>
      simp only [scanMarkers, List.filter_nil, List.map_nil, List.sum_nil,
        add_zero, List.find?_nil, Option.map_none, Option.getD_none]
      cases bm <;> simp
  | cons m rest ih =>
      by_cases hm : hasSub u m.1
      · simp only [scanMarkers, hm, if_true,
          ih _ _ (fun x hx => hms x (List.mem_cons_of_mem _ hx)),
          List.filter_cons, List.find?_cons, if_pos hm]
        refine Prod.ext ?_ ?_
        · simp [add_assoc]
        · cases bm with
          | nil =>
              have hm1 : m.1.isEmpty = false := by
                cases hmm : m.1 with
                | nil => exact absurd hmm (hms m (List.mem_cons_self m rest))
                | cons a t => rfl
              simp [hm1]
          | cons b bs => simp
      · simp only [scanMarkers, hm, if_false,
          ih _ _ (fun x hx => hms x (List.mem_cons_of_mem _ hx)),
          List.filter_cons, List.find?_cons, if_neg hm]
        simp [hm]

lemma markerScore_def (u : List Nat) :
    markerScore u =
      min 1 ((markersTable.filter fun m => hasSub u m.1).map fun m => m.2).sum := rfl

lemma firstMarkerHit_def (u : List Nat) :
    firstMarkerHit u = markersTable.find? fun m => hasSub u m.1 := rfl

lemma analyzeContent_eq (text : List Nat) (hne : text ≠ []) :
    analyzeContent text =
      if 0.30 ≤ markerScore (text.map upByte) then
        { decision := .Invoice,
          matchedPattern := bytesOf "Content analysis: " ++
            (((firstMarkerHit (text.map upByte)).map fun m => m.1).getD []),
          confidenceScore := markerScore (text.map upByte) }
      else
        { decision := .NotInvoice,
          confidenceScore := 1 - markerScore (text.map upByte) } := by
  have hmarkers : ∀ m ∈ markersTable, m.1 ≠ [] := by decide
  have htext : text.isEmpty = false := by
    cases text with
    | nil => exact absurd rfl hne
    | cons a t => rfl
  unfold analyzeContent
  simp only [htext, Bool.false_eq_true, if_false,
    scanMarkers_spec (text.map upByte) markersTable 0 [] hmarkers,
    List.isEmpty_nil, if_true, zero_add, clamp_eq_min,
    ← markerScore_def, ← firstMarkerHit_def]

lemma markerScore_invoice_billto :
    markerScore ((bytesOf "INVOICE BILL TO").map upByte) = 0.45 := by
  rw [markerScore_def, show markersTable.filter
    (fun m => hasSub ((bytesOf "INVOICE BILL TO").map upByte) m.1) =
    [(bytesOf "INVOICE", 0.25), (bytesOf "BILL TO", 0.20)] from rfl]
  simp only [List.map_cons, List.map_nil, List.sum_cons, List.sum_nil]
  norm_num

lemma markerScore_plain :
    markerScore ((bytesOf "A PLAIN LETTER").map upByte) = 0 := by
  rw [markerScore_def, show markersTable.filter
    (fun m => hasSub ((bytesOf "A PLAIN LETTER").map upByte) m.1) = [] from rfl]
  simp only [List.map_nil, List.sum_nil]
  norm_num

/-- Claim C4: for a non-empty excerpt, tier-2 classification upper-cases
it and sums the weights of the fixed marker table entries present as
substrings, clamped to 1.0; at clamped score ≥ 0.30 the decision is
`Invoice` with confidence equal to the score and diagnostic naming the
first marker found in table order, otherwise `NotInvoice` with
confidence `1 - score`; in particular "INVOICE" + "BILL TO" gives
`Invoice` at 0.45 and a marker-free excerpt gives `NotInvoice`
at 1.0. -/
theorem analyze_content_scoring (text : List Nat) (hne : text ≠ []) :
    (0.30 ≤ markerScore (text.map upByte) →
      analyzeContent text =
        { decision := .Invoice,
          matchedPattern := bytesOf "Content analysis: " ++
            (((firstMarkerHit (text.map upByte)).map fun m => m.1).getD []),
          confidenceScore := markerScore (text.map upByte) }) ∧
    (¬ 0.30 ≤ markerScore (text.map upByte) →
      analyzeContent text =
        { decision := .NotInvoice,
          confidenceScore := 1 - markerScore (text.map upByte) }) ∧
    analyzeContent (bytesOf "INVOICE BILL TO") =
      { decision := .Invoice,
        matchedPattern := bytesOf "Content analysis: INVOICE",
        confidenceScore := 0.45 } ∧
    analyzeContent (bytesOf "A PLAIN LETTER") =
      { decision := .NotInvoice, confidenceScore := 1 } := by
  refine ⟨fun h => by rw [analyzeContent_eq text hne, if_pos h],
          fun h => by rw [analyzeContent_eq text hne, if_neg h], ?_, ?_⟩
  · rw [analyzeContent_eq (bytesOf "INVOICE BILL TO") (by decide),
      markerScore_invoice_billto,
      if_pos (by norm_num : (0.30 : ℚ) ≤ 0.45),
      show firstMarkerHit ((bytesOf "INVOICE BILL TO").map upByte) =
        some (bytesOf "INVOICE", 0.25) from rfl]
    rfl
  · rw [analyzeContent_eq (bytesOf "A PLAIN LETTER") (by decide),
      markerScore_plain, if_neg (by norm_num : ¬ (0.30 : ℚ) ≤ 0)]
    norm_num

theorem analyze_content_scoring_witness :
    analyzeContent (bytesOf "INVOICE BILL TO") =
      { decision := .Invoice,
        matchedPattern := bytesOf "Content analysis: INVOICE",
        confidenceScore := 0.45 } :=
  (analyze_content_scoring (bytesOf "INVOICE BILL TO") (by decide)).2.2.1

/-- Claim C5: when the base filename of the path matches a pattern of
the static table, `Route` returns `Invoice` with confidence 0.95 and
the description/name of the first matching pattern in table order
without invoking the content-extraction collaborator; tier 2 (content
analysis of the extracted excerpt) runs exactly when no pattern
matches.  The six compiled regexes are abstracted as the matchers
`m0`–`m5`. -/
theorem route_tier1_short_circuit (m0 m1 m2 m3 m4 m5 : List Nat → Bool)
    (ex : List Nat → List Nat) (path : List Nat) :
    (m0 (baseNameOf path) = true →
      route (defaultPatterns m0 m1 m2 m3 m4 m5) ex path =
        ({ decision := .Invoice,
           matchedPattern := bytesOf "GTBank invoice filenames",
           clientHint := bytesOf "GTBank", confidenceScore := 0.95 }, false)) ∧
    (m0 (baseNameOf path) = false → m1 (baseNameOf path) = true →
      route (defaultPatterns m0 m1 m2 m3 m4 m5) ex path =
        ({ decision := .Invoice,
           matchedPattern := bytesOf "MTN billing documents",
           clientHint := bytesOf "MTN", confidenceScore := 0.95 }, false)) ∧
    (m0 (baseNameOf path) = false → m1 (baseNameOf path) = false →
      m2 (baseNameOf path) = true →
      route (defaultPatterns m0 m1 m2 m3 m4 m5) ex path =
        ({ decision := .Invoice,
           matchedPattern := bytesOf "Airtel billing documents",
           clientHint := bytesOf "Airtel", confidenceScore := 0.95 }, false)) ∧
    (m0 (baseNameOf path) = false → m1 (baseNameOf path) = false →
      m2 (baseNameOf path) = false → m3 (baseNameOf path) = true →
      route (defaultPatterns m0 m1 m2 m3 m4 m5) ex path =
        ({ decision := .Invoice,
           matchedPattern := bytesOf "ExecuJet work order / invoice",
           clientHint := bytesOf "ExecuJet", confidenceScore := 0.95 }, false)) ∧
    (m0 (baseNameOf path) = false → m1 (baseNameOf path) = false →
      m2 (baseNameOf path) = false → m3 (baseNameOf path) = false →
      m4 (baseNameOf path) = true →
      route (defaultPatterns m0 m1 m2 m3 m4 m5) ex path =
        ({ decision := .Invoice,
           matchedPattern := bytesOf "Generic invoice filenames",
           clientHint := bytesOf "Generic", confidenceScore := 0.95 }, false)) ∧
    (m0 (baseNameOf path) = false → m1 (baseNameOf path) = false →
      m2 (baseNameOf path) = false → m3 (baseNameOf path) = false →
      m4 (baseNameOf path) = false → m5 (baseNameOf path) = true →
      route (defaultPatterns m0 m1 m2 m3 m4 m5) ex path =
        ({ decision := .Invoice,
           matchedPattern := bytesOf "FIRS / tax-related documents",
           clientHint := bytesOf "FIRS", confidenceScore := 0.95 }, false)) ∧
    (m0 (baseNameOf path) = false → m1 (baseNameOf path) = false →
      m2 (baseNameOf path) = false → m3 (baseNameOf path) = false →
      m4 (baseNameOf path) = false → m5 (baseNameOf path) = false →
      route (defaultPatterns m0 m1 m2 m3 m4 m5) ex path =
        (analyzeContent (ex path), true)) := by
  refine ⟨?_, ?_, ?_, ?_, ?_, ?_, ?_⟩ <;> intros <;>
    simp_all [route, matchFilename, defaultPatterns, List.find?_cons]

theorem route_tier1_short_circuit_witness :
    route (defaultPatterns (fun _ => true) (fun _ => false) (fun _ => false)
        (fun _ => false) (fun _ => false) (fun _ => false)) (fun _ => [])
        (bytesOf "GT_Bank_invoice.pdf") =
      ({ decision := .Invoice,
         matchedPattern := bytesOf "GTBank invoice filenames",
         clientHint := bytesOf "GTBank", confidenceScore := 0.95 }, false) :=
  (route_tier1_short_circuit (fun _ => true) (fun _ => false) (fun _ => false)
    (fun _ => false) (fun _ => false) (fun _ => false) (fun _ => [])
    (bytesOf "GT_Bank_invoice.pdf")).1 rfl

/-- Claim C7: for every HTTP response actually received
(`resp.success = true`): status 200 or 201 yields `success = true` with
`fileUuid`/`firsReference` extracted from the `"file_uuid"` and
`"firs_reference"` fields of the body; 409 yields the duplicate-rejected
error; 429 yields the rate-limit error; any other status yields a
generic error carrying the status code. -/
theorem submit_outcome_cases (resp : RelayResponse) (h : resp.success = true) :
    ((resp.statusCode = 200 ∨ resp.statusCode = 201) →
      submitOutcome resp =
        { success := true,
          firsReference := extractField resp.body (bytesOf "firs_reference"),
          fileUuid := extractField resp.body (bytesOf "file_uuid"),
          error := [], httpStatus := resp.statusCode }) ∧
    (resp.statusCode = 409 →
      submitOutcome resp =
        { success := false,
          error := bytesOf "Invoice already submitted (duplicate)",
          httpStatus := 409 }) ∧
    (resp.statusCode = 429 →
      submitOutcome resp =
        { success := false,
          error := bytesOf "Daily submission limit exceeded",
          httpStatus := 429 }) ∧
    (resp.statusCode ≠ 200 → resp.statusCode ≠ 201 → resp.statusCode ≠ 409 →
      resp.statusCode ≠ 429 →
      submitOutcome resp =
        { success := false,
          error := bytesOf "Relay returned HTTP "
            ++ bytesOf (toString resp.statusCode),
          httpStatus := resp.statusCode }) := by
  refine ⟨?_, ?_, ?_, ?_⟩
  · rintro (h2 | h2) <;> simp [submitOutcome, h, h2]
  · intro h2; simp [submitOutcome, h, h2]
  · intro h2; simp [submitOutcome, h, h2]
  · intro h1 h2 h3 h4
    simp [submitOutcome, h, beq_iff_eq, h1, h2, h3, h4]

theorem submit_outcome_cases_witness :
    submitOutcome { statusCode := 409, body := [], error := [], success := true } =
      { success := false,
        error := bytesOf "Invoice already submitted (duplicate)",
        httpStatus := 409 } :=
  (submit_outcome_cases
    { statusCode := 409, body := [], error := [], success := true } rfl).2.1 rfl

/-- Claim C8: in the `OnSubmitClicked` sequence, an invalid session
ends in `NoSession` without calling the transport (regardless of the
duplicate state, showing the session check runs first); a valid session
with a duplicate hit ends in `AlreadySubmitted` without calling the
transport; and the transport is called only when the session is valid
and the duplicate check did not report `AlreadySubmitted`. -/
theorem submit_clicked_sequence (session : SessionInfo) (cache : CacheState)
    (tr : SubmitResult) (path : List Nat) (now : Nat) :
    (session.valid = false →
      (onSubmitClicked session cache tr path now).1 =
        [⟨.NoSession, bytesOf "Sign In Required", session.error⟩] ∧
      (onSubmitClicked session cache tr path now).2.1 = false) ∧
    (session.valid = true →
      (check cache (baseNameOf path)).status = .AlreadySubmitted →
      ((onSubmitClicked session cache tr path now).1.map fun b => b.state) =
        [.AlreadySubmitted] ∧
      (onSubmitClicked session cache tr path now).2.1 = false) ∧
    ((onSubmitClicked session cache tr path now).2.1 = true →
      session.valid = true ∧
      (check cache (baseNameOf path)).status ≠ .AlreadySubmitted) := by
  refine ⟨?_, ?_, ?_⟩
  · intro h
    simp [onSubmitClicked, h]
  · intro h hd
    simp [onSubmitClicked, h, hd]
  · intro h
    by_cases hd : (check cache (baseNameOf path)).status = .AlreadySubmitted
    · rcases Bool.eq_false_or_eq_true session.valid with hv | hv <;>
        simp [onSubmitClicked, hv, hd] at h
    · rcases Bool.eq_false_or_eq_true session.valid with hv | hv
      · exact ⟨hv, hd⟩
      · simp [onSubmitClicked, hv] at h


theorem submit_clicked_sequence_witness :
    (onSubmitClicked { valid := false, error := bytesOf "expired" } emptyCache
        { success := true } (bytesOf "a.pdf") 3).1 =
      [⟨.NoSession, bytesOf "Sign In Required", bytesOf "expired"⟩] ∧
      (onSubmitClicked { valid := false, error := bytesOf "expired" } emptyCache
        { success := true } (bytesOf "a.pdf") 3).2.1 = false :=
  (submit_clicked_sequence { valid := false, error := bytesOf "expired" }
    emptyCache { success := true } (bytesOf "a.pdf") 3).1 rfl

end Transforma
